import Mathlib

/-!
Verification of the Dragonchess rules engine and search code.

The Python sources (`bitboard.py`, `moves.py`, `game.py`,
`evolve_dragonfish.py`) are shallowly embedded below: boards are total
functions from flat indices to signed piece codes (positive = Gold,
negative = Scarlet, 0 = empty), coordinates are integers so that the
source's possibly-negative intermediate coordinates are represented
exactly, and the stateful `Game` object becomes a record transformed by
pure functions.  Fallible operations return `Except`.
-/

set_option maxRecDepth 16384

namespace Dragonchess

/-! ## Board model (`bitboard.py`) -/

def NUM_BOARDS : Nat := 3

def BOARD_ROWS : Nat := 8

def BOARD_COLS : Nat := 12

def TOTAL_SQUARES : Nat := NUM_BOARDS * BOARD_ROWS * BOARD_COLS

/-- A board is a total map from flat indices to signed piece codes.
All accesses performed by the embedded code are at indices produced by
`pos_to_index` on `in_bounds` coordinates, proved in `C10`. -/
abbrev Board := Int → Int

/-- `pos_to_index(layer, row, col)` from `bitboard.py`:
`layer * (BOARD_ROWS * BOARD_COLS) + row * BOARD_COLS + col`. -/
def pos_to_index (layer row col : Int) : Int :=
  layer * ((BOARD_ROWS : Int) * (BOARD_COLS : Int)) + row * (BOARD_COLS : Int) + col

/-- `index_to_pos(index)` from `bitboard.py`.  Python's `//` and `%` on a
nonnegative dividend with positive divisor coincide with Euclidean
division, so `Int.ediv`/`Int.emod` model them exactly on the domain the
program uses. -/
def index_to_pos (index : Int) : Int × Int × Int :=
  let layer := index / ((BOARD_ROWS : Int) * (BOARD_COLS : Int))
  let rem := index % ((BOARD_ROWS : Int) * (BOARD_COLS : Int))
  (layer, rem / (BOARD_COLS : Int), rem % (BOARD_COLS : Int))

/-- `in_bounds(layer, row, col)` from `moves.py`. -/
def in_bounds (layer row col : Int) : Bool :=
  (0 ≤ layer && layer < (NUM_BOARDS : Int)) &&
  (0 ≤ row && row < (BOARD_ROWS : Int)) &&
  (0 ≤ col && col < (BOARD_COLS : Int))

/-! ## Pieces, sides and move flags (`moves.py`) -/

/-- The two sides; the source represents them as the strings
`"Gold"` and `"Scarlet"`. -/

inductive Color where
  | Gold
  | Scarlet
deriving DecidableEq, Repr

/-- A move is the source's triple `(from_idx, to_idx, flag)`. -/
abbrev Move := Int × Int × Nat

def QUIET : Nat := 0

def CAPTURE : Nat := 1

def AFAR : Nat := 2

def AMBIGUOUS : Nat := 3

def THREED : Nat := 4

/-- The test `(color == "Gold" and p < 0) or (color == "Scarlet" and p > 0)`
that recurs throughout `moves.py`: `p` is an enemy piece of `color`. -/
def is_enemy (color : Color) (p : Int) : Bool :=
  (color == Color.Gold && decide (p < 0)) || (color == Color.Scarlet && decide (p > 0))

/-- The test `(turn == "Gold" and p > 0) or (turn == "Scarlet" and p < 0)`
used by `game.py`: `p` is a friendly piece of `color`. -/
def is_friendly (color : Color) (p : Int) : Bool :=
  (color == Color.Gold && decide (p > 0)) || (color == Color.Scarlet && decide (p < 0))

/-- The test `board[to_idx] == 0 or (enemy ...)` that guards most
candidate emissions in `moves.py`. -/
def empty_or_enemy (color : Color) (p : Int) : Bool :=
  p == 0 || is_enemy color p

/-- A conditional `moves.append(...)`: the singleton when the source's
guard holds, nothing otherwise. -/
def emit (cond : Bool) (m : Move) : List Move :=
  if cond then [m] else []

/-- A sliding `while True` loop from `moves.py` (Dragon, Oliphant, Thief,
Mage): step by `(dr, dc)` from `(r, c)` on layer `layer`; an empty square
is emitted and the slide continues, an enemy square is emitted and stops
the slide, a friendly square or the board edge stops it.  `fuel` bounds
the iteration count; every caller passes `BOARD_ROWS + BOARD_COLS = 20`,
which exceeds the longest possible slide on an 8×12 board, so the
bounded recursion coincides with the source's unbounded loop. -/
def slide (board : Board) (color : Color) (from_idx layer dr dc : Int) :
    Nat → Int → Int → List Move
  | 0, _, _ => []
  | fuel + 1, r, c =>
    let r2 := r + dr
    let c2 := c + dc
    if in_bounds layer r2 c2 then
      let to_idx := pos_to_index layer r2 c2
      if board to_idx == 0 then
        (from_idx, to_idx, AMBIGUOUS) :: slide board color from_idx layer dr dc fuel r2 c2
      else if is_enemy color (board to_idx) then [(from_idx, to_idx, AMBIGUOUS)]
      else []
    else []

/-- Every move a generator may emit: it starts at the generator's own
square, its destination index is in range, and a `THREED`-flagged move
(the only flag `Game.get_all_moves` does not re-check) already has an
empty or enemy-held destination. -/
def move_ok (from_idx : Int) (board : Board) (color : Color) (x : Move) : Prop :=
  x.1 = from_idx ∧ (0 ≤ x.2.1 ∧ x.2.1 < 288) ∧
    (x.2.2 = QUIET ∨ x.2.2 = CAPTURE ∨ x.2.2 = AFAR ∨ x.2.2 = AMBIGUOUS ∨
      x.2.2 = THREED) ∧
    (x.2.2 = THREED → empty_or_enemy color (board x.2.1) = true)

/-! ## The fifteen move generators (`moves.py`)

Each generator is a direct translation of the corresponding Python
function.  `for` loops over literal offset tuples become `List.flatMap`
over the same literal lists; each `moves.append` guarded by bounds and
occupancy tests becomes an `emit` whose condition conjoins the source's
nested `if`s; `while True` slides use `slide` above. -/

/-- Diagonal step offsets, the source's `for dr in (-1,1): for dc in (-1,1)`. -/

def diag_steps : List (Int × Int) := [(-1, -1), (-1, 1), (1, -1), (1, 1)]

/-- King-step offsets, the source's `for dr in (-1,0,1): for dc in (-1,0,1)`
with `(0,0)` skipped. -/
def king_steps : List (Int × Int) :=
  [(-1, -1), (-1, 0), (-1, 1), (0, -1), (0, 1), (1, -1), (1, 0), (1, 1)]

/-- Knight-jump offsets used by the Unicorn and the Paladin. -/
def knight_jumps : List (Int × Int) :=
  [(2, 1), (2, -1), (-2, 1), (-2, -1), (1, 2), (1, -2), (-1, 2), (-1, -2)]

/-- The Griffin's `((3,2), (3,-2), (-3,2), (-3,-2), (2,3), (2,-3), (-2,3), (-2,-3))`. -/
def griffin_jumps : List (Int × Int) :=
  [(3, 2), (3, -2), (-3, 2), (-3, -2), (2, 3), (2, -3), (-2, 3), (-2, -3)]

/-- Orthogonal steps in the order `((0,1), (0,-1), (1,0), (-1,0))`
(Dragon afar captures, Mage top/bottom steps). -/
def orth_steps_a : List (Int × Int) := [(0, 1), (0, -1), (1, 0), (-1, 0)]

/-- Orthogonal steps in the order `((1,0), (-1,0), (0,1), (0,-1))`
(Oliphant and Elemental). -/
def orth_steps_b : List (Int × Int) := [(1, 0), (-1, 0), (0, 1), (0, -1)]

/-- The Hero's same-layer `for dr in (-2,-1,1,2): for dc in (-2,-1,1,2)`
restricted to `abs(dr) == abs(dc)`. -/
def hero_diags : List (Int × Int) :=
  [(-2, -2), (-2, 2), (-1, -1), (-1, 1), (1, -1), (1, 1), (2, -2), (2, 2)]

/-- The Mage's top/bottom-layer `for d in (-2, -1, 1, 2)` row offsets. -/
def mage_vertical_offsets : List Int := [-2, -1, 1, 2]

def generate_sylph_moves : (Int × Int × Int) → Board → Color → List Move
  | (layer, row, col), board, color =>
    let from_idx := pos_to_index layer row col
    let direction : Int := if color == Color.Gold then -1 else 1
    if layer == 0 then
      (([-1, 1] : List Int).flatMap fun dc =>
        emit (in_bounds layer (row + direction) (col + dc) &&
              board (pos_to_index layer (row + direction) (col + dc)) == 0)
          (from_idx, pos_to_index layer (row + direction) (col + dc), QUIET)) ++
      emit (in_bounds layer (row + direction) col &&
            (board (pos_to_index layer (row + direction) col) != 0 &&
             is_enemy color (board (pos_to_index layer (row + direction) col))))
        (from_idx, pos_to_index layer (row + direction) col, CAPTURE) ++
      emit (in_bounds 1 row col &&
            (board (pos_to_index 1 row col) != 0 &&
             is_enemy color (board (pos_to_index 1 row col))))
        (from_idx, pos_to_index 1 row col, CAPTURE)
    else if layer == 1 then
      emit (in_bounds 0 row col && board (pos_to_index 0 row col) == 0)
        (from_idx, pos_to_index 0 row col, QUIET) ++
      (if color == Color.Gold then
        (([0, 2, 4, 6, 8, 10] : List Int).flatMap fun c =>
          emit (in_bounds 0 ((BOARD_ROWS : Int) - 1) c &&
                board (pos_to_index 0 ((BOARD_ROWS : Int) - 1) c) == 0)
            (from_idx, pos_to_index 0 ((BOARD_ROWS : Int) - 1) c, QUIET))
      else
        (([1, 3, 5, 7, 9, 11] : List Int).flatMap fun c =>
          emit (in_bounds 0 0 c && board (pos_to_index 0 0 c) == 0)
            (from_idx, pos_to_index 0 0 c, QUIET)))
    else []

def generate_griffin_moves : (Int × Int × Int) → Board → Color → List Move
  | (layer, row, col), board, color =>
    let from_idx := pos_to_index layer row col
    if layer == 0 then
      (griffin_jumps.flatMap fun d =>
        emit (in_bounds layer (row + d.1) (col + d.2) &&
              empty_or_enemy color (board (pos_to_index layer (row + d.1) (col + d.2))))
          (from_idx, pos_to_index layer (row + d.1) (col + d.2), AMBIGUOUS)) ++
      (diag_steps.flatMap fun d =>
        emit (in_bounds 1 (row + d.1) (col + d.2) &&
              empty_or_enemy color (board (pos_to_index 1 (row + d.1) (col + d.2))))
          (from_idx, pos_to_index 1 (row + d.1) (col + d.2), AMBIGUOUS))
    else if layer == 1 then
      (diag_steps.flatMap fun d =>
        emit (in_bounds layer (row + d.1) (col + d.2) &&
              empty_or_enemy color (board (pos_to_index layer (row + d.1) (col + d.2))))
          (from_idx, pos_to_index layer (row + d.1) (col + d.2), AMBIGUOUS)) ++
      (diag_steps.flatMap fun d =>
        emit (in_bounds 0 (row + d.1) (col + d.2) &&
              empty_or_enemy color (board (pos_to_index 0 (row + d.1) (col + d.2))))
          (from_idx, pos_to_index 0 (row + d.1) (col + d.2), AMBIGUOUS))
    else []

def generate_dragon_moves : (Int × Int × Int) → Board → Color → List Move
  | (layer, row, col), board, color =>
    let from_idx := pos_to_index layer row col
    if layer != 0 then []
    else
      (king_steps.flatMap fun d =>
        emit (in_bounds layer (row + d.1) (col + d.2) &&
              empty_or_enemy color (board (pos_to_index layer (row + d.1) (col + d.2))))
          (from_idx, pos_to_index layer (row + d.1) (col + d.2), AMBIGUOUS)) ++
      (diag_steps.flatMap fun d =>
        slide board color from_idx layer d.1 d.2 (BOARD_ROWS + BOARD_COLS) row col) ++
      emit (in_bounds 1 row col &&
            (board (pos_to_index 1 row col) != 0 &&
             is_enemy color (board (pos_to_index 1 row col))))
        (from_idx, pos_to_index 1 row col, AFAR) ++
      (orth_steps_a.flatMap fun d =>
        emit (in_bounds 1 (row + d.1) (col + d.2) &&
              (board (pos_to_index 1 (row + d.1) (col + d.2)) != 0 &&
               is_enemy color (board (pos_to_index 1 (row + d.1) (col + d.2)))))
          (from_idx, pos_to_index 1 (row + d.1) (col + d.2), AFAR))

def generate_oliphant_moves : (Int × Int × Int) → Board → Color → List Move
  | (layer, row, col), board, color =>
    let from_idx := pos_to_index layer row col
    if layer != 1 then []
    else
      orth_steps_b.flatMap fun d =>
        slide board color from_idx layer d.1 d.2 (BOARD_ROWS + BOARD_COLS) row col

def generate_unicorn_moves : (Int × Int × Int) → Board → Color → List Move
  | (layer, row, col), board, color =>
    let from_idx := pos_to_index layer row col
    if layer != 1 then []
    else
      knight_jumps.flatMap fun d =>
        emit (in_bounds layer (row + d.1) (col + d.2) &&
              empty_or_enemy color (board (pos_to_index layer (row + d.1) (col + d.2))))
          (from_idx, pos_to_index layer (row + d.1) (col + d.2), AMBIGUOUS)

def generate_hero_moves : (Int × Int × Int) → Board → Color → List Move
  | (layer, row, col), board, color =>
    let from_idx := pos_to_index layer row col
    if layer == 1 then
      (hero_diags.flatMap fun d =>
        emit (in_bounds layer (row + d.1) (col + d.2) &&
              empty_or_enemy color (board (pos_to_index layer (row + d.1) (col + d.2))))
          (from_idx, pos_to_index layer (row + d.1) (col + d.2), AMBIGUOUS)) ++
      (([0, 2] : List Int).flatMap fun target_layer =>
        diag_steps.flatMap fun d =>
          emit (in_bounds target_layer (row + d.1) (col + d.2) &&
                empty_or_enemy color (board (pos_to_index target_layer (row + d.1) (col + d.2))))
            (from_idx, pos_to_index target_layer (row + d.1) (col + d.2), AMBIGUOUS))
    else
      diag_steps.flatMap fun d =>
        emit (in_bounds 1 (row + d.1) (col + d.2) &&
              empty_or_enemy color (board (pos_to_index 1 (row + d.1) (col + d.2))))
          (from_idx, pos_to_index 1 (row + d.1) (col + d.2), AMBIGUOUS)

def generate_thief_moves : (Int × Int × Int) → Board → Color → List Move
  | (layer, row, col), board, color =>
    let from_idx := pos_to_index layer row col
    if layer != 1 then []
    else
      diag_steps.flatMap fun d =>
        slide board color from_idx layer d.1 d.2 (BOARD_ROWS + BOARD_COLS) row col

def generate_cleric_moves : (Int × Int × Int) → Board → Color → List Move
  | (layer, row, col), board, color =>
    let from_idx := pos_to_index layer row col
    (king_steps.flatMap fun d =>
      emit (in_bounds layer (row + d.1) (col + d.2) &&
            empty_or_enemy color (board (pos_to_index layer (row + d.1) (col + d.2))))
        (from_idx, pos_to_index layer (row + d.1) (col + d.2), AMBIGUOUS)) ++
    (if layer == 0 then
      emit (in_bounds 1 row col && empty_or_enemy color (board (pos_to_index 1 row col)))
        (from_idx, pos_to_index 1 row col, AMBIGUOUS)
    else if layer == 1 then
      (([0, 2] : List Int).flatMap fun target_layer =>
        emit (in_bounds target_layer row col &&
              empty_or_enemy color (board (pos_to_index target_layer row col)))
          (from_idx, pos_to_index target_layer row col, AMBIGUOUS))
    else if layer == 2 then
      emit (in_bounds 1 row col && empty_or_enemy color (board (pos_to_index 1 row col)))
        (from_idx, pos_to_index 1 row col, AMBIGUOUS)
    else [])

def generate_mage_moves : (Int × Int × Int) → Board → Color → List Move
  | (layer, row, col), board, color =>
    let from_idx := pos_to_index layer row col
    if layer == 1 then
      (king_steps.flatMap fun d =>
        slide board color from_idx layer d.1 d.2 (BOARD_ROWS + BOARD_COLS) row col) ++
      (([-1, 1] : List Int).flatMap fun d_layer =>
        emit (in_bounds (layer + d_layer) row col &&
              empty_or_enemy color (board (pos_to_index (layer + d_layer) row col)))
          (from_idx, pos_to_index (layer + d_layer) row col, AMBIGUOUS))
    else
      (orth_steps_a.flatMap fun d =>
        emit (in_bounds layer (row + d.1) (col + d.2) &&
              empty_or_enemy color (board (pos_to_index layer (row + d.1) (col + d.2))))
          (from_idx, pos_to_index layer (row + d.1) (col + d.2), AMBIGUOUS)) ++
      (mage_vertical_offsets.flatMap fun d =>
        emit (in_bounds layer (row + d) col &&
              empty_or_enemy color (board (pos_to_index layer (row + d) col)))
          (from_idx, pos_to_index layer (row + d) col, AMBIGUOUS))

def generate_king_moves : (Int × Int × Int) → Board → Color → List Move
  | (layer, row, col), board, color =>
    let from_idx := pos_to_index layer row col
    if layer == 1 then
      (king_steps.flatMap fun d =>
        emit (in_bounds layer (row + d.1) (col + d.2) &&
              empty_or_enemy color (board (pos_to_index layer (row + d.1) (col + d.2))))
          (from_idx, pos_to_index layer (row + d.1) (col + d.2), AMBIGUOUS)) ++
      (([-1, 1] : List Int).flatMap fun d_layer =>
        emit (in_bounds (layer + d_layer) row col &&
              empty_or_enemy color (board (pos_to_index (layer + d_layer) row col)))
          (from_idx, pos_to_index (layer + d_layer) row col, AMBIGUOUS))
    else
      emit (in_bounds 1 row col && empty_or_enemy color (board (pos_to_index 1 row col)))
        (from_idx, pos_to_index 1 row col, AMBIGUOUS)

/-- `diffs.sort()` on the three absolute coordinate differences of a
candidate Paladin 3D jump. -/
def sort3 (a b c : Nat) : List Nat :=
  if a ≤ b then
    if b ≤ c then [a, b, c]
    else if a ≤ c then [a, c, b]
    else [c, a, b]
  else
    if a ≤ c then [b, a, c]
    else if b ≤ c then [b, c, a]
    else [c, b, a]

/-- The Paladin's triple loop `for d_layer in (-2,-1,1,2): for d_row in
(-2,...,2): for d_col in (-2,...,2)` with the sorted-absolute-differences
test `(0, 1, 2)`; the source's redundant `d_layer == 0` skip is vacuous
because `0` is not in the layer-offset tuple. -/
def paladin_3d_offsets : List (Int × Int × Int) :=
  (([-2, -1, 1, 2] : List Int).flatMap fun d_layer =>
    (([-2, -1, 0, 1, 2] : List Int).flatMap fun d_row =>
      (([-2, -1, 0, 1, 2] : List Int).flatMap fun d_col =>
        if sort3 d_layer.natAbs d_row.natAbs d_col.natAbs == [0, 1, 2] then
          [(d_layer, d_row, d_col)]
        else [])))

def generate_paladin_moves : (Int × Int × Int) → Board → Color → List Move
  | (layer, row, col), board, color =>
    let from_idx := pos_to_index layer row col
    (if layer == 1 then
      (king_steps.flatMap fun d =>
        emit (in_bounds layer (row + d.1) (col + d.2) &&
              empty_or_enemy color (board (pos_to_index layer (row + d.1) (col + d.2))))
          (from_idx, pos_to_index layer (row + d.1) (col + d.2), AMBIGUOUS)) ++
      (knight_jumps.flatMap fun d =>
        emit (in_bounds layer (row + d.1) (col + d.2) &&
              empty_or_enemy color (board (pos_to_index layer (row + d.1) (col + d.2))))
          (from_idx, pos_to_index layer (row + d.1) (col + d.2), AMBIGUOUS))
    else
      (king_steps.flatMap fun d =>
        emit (in_bounds layer (row + d.1) (col + d.2) &&
              empty_or_enemy color (board (pos_to_index layer (row + d.1) (col + d.2))))
          (from_idx, pos_to_index layer (row + d.1) (col + d.2), AMBIGUOUS))) ++
    (paladin_3d_offsets.flatMap fun d =>
      emit (in_bounds (layer + d.1) (row + d.2.1) (col + d.2.2) &&
            empty_or_enemy color (board (pos_to_index (layer + d.1) (row + d.2.1) (col + d.2.2))))
        (from_idx, pos_to_index (layer + d.1) (row + d.2.1) (col + d.2.2), THREED))

def generate_warrior_moves : (Int × Int × Int) → Board → Color → List Move
  | (layer, row, col), board, color =>
    let from_idx := pos_to_index layer row col
    if layer != 1 then []
    else
      let direction : Int := if color == Color.Gold then -1 else 1
      emit (in_bounds layer (row + direction) col &&
            board (pos_to_index layer (row + direction) col) == 0)
        (from_idx, pos_to_index layer (row + direction) col, QUIET) ++
      (([-1, 1] : List Int).flatMap fun dc =>
        emit (in_bounds layer (row + direction) (col + dc) &&
              (board (pos_to_index layer (row + direction) (col + dc)) != 0 &&
               is_enemy color (board (pos_to_index layer (row + direction) (col + dc)))))
          (from_idx, pos_to_index layer (row + direction) (col + dc), CAPTURE))

def generate_basilisk_moves : (Int × Int × Int) → Board → Color → List Move
  | (layer, row, col), board, color =>
    let from_idx := pos_to_index layer row col
    if layer != 2 then []
    else
      let direction : Int := if color == Color.Gold then -1 else 1
      (([0, -1, 1] : List Int).flatMap fun dc =>
        emit (in_bounds layer (row + direction) (col + dc) &&
              (board (pos_to_index layer (row + direction) (col + dc)) != 0 &&
               is_enemy color (board (pos_to_index layer (row + direction) (col + dc)))))
          (from_idx, pos_to_index layer (row + direction) (col + dc), AMBIGUOUS)) ++
      emit (in_bounds layer (row - direction) col &&
            board (pos_to_index layer (row - direction) col) == 0)
        (from_idx, pos_to_index layer (row - direction) col, QUIET)

def generate_elemental_moves : (Int × Int × Int) → Board → Color → List Move
  | (layer, row, col), board, color =>
    let from_idx := pos_to_index layer row col
    if layer == 2 then
      (orth_steps_b.flatMap fun d =>
        if in_bounds layer (row + d.1) (col + d.2) &&
           empty_or_enemy color (board (pos_to_index layer (row + d.1) (col + d.2))) then
          (from_idx, pos_to_index layer (row + d.1) (col + d.2), AMBIGUOUS) ::
            emit (in_bounds layer (row + 2 * d.1) (col + 2 * d.2) &&
                  (board (pos_to_index layer (row + d.1) (col + d.2)) == 0 &&
                   empty_or_enemy color (board (pos_to_index layer (row + 2 * d.1) (col + 2 * d.2)))))
              (from_idx, pos_to_index layer (row + 2 * d.1) (col + 2 * d.2), AMBIGUOUS)
        else []) ++
      (diag_steps.flatMap fun d =>
        emit (in_bounds layer (row + d.1) (col + d.2) &&
              board (pos_to_index layer (row + d.1) (col + d.2)) == 0)
          (from_idx, pos_to_index layer (row + d.1) (col + d.2), QUIET)) ++
      (orth_steps_b.flatMap fun d =>
        emit (in_bounds layer (row + d.1) (col + d.2) &&
              board (pos_to_index layer (row + d.1) (col + d.2)) == 0)
          (from_idx, pos_to_index 1 (row + d.1) (col + d.2), CAPTURE))
    else if layer == 1 then
      orth_steps_b.flatMap fun d =>
        if in_bounds layer (row + d.1) (col + d.2) &&
           board (pos_to_index layer (row + d.1) (col + d.2)) == 0 then
          (if board (pos_to_index 2 (row + d.1) (col + d.2)) == 0 then
            [(from_idx, pos_to_index 2 (row + d.1) (col + d.2), QUIET)]
          else if is_enemy color (board (pos_to_index 2 (row + d.1) (col + d.2))) then
            [(from_idx, pos_to_index 2 (row + d.1) (col + d.2), CAPTURE)]
          else [])
        else []
    else []

def generate_dwarf_moves : (Int × Int × Int) → Board → Color → List Move
  | (layer, row, col), board, color =>
    let from_idx := pos_to_index layer row col
    if layer != 1 && layer != 2 then []
    else
      let direction : Int := if color == Color.Gold then -1 else 1
      emit (in_bounds layer (row + direction) col &&
            board (pos_to_index layer (row + direction) col) == 0)
        (from_idx, pos_to_index layer (row + direction) col, QUIET) ++
      (([-1, 1] : List Int).flatMap fun dc =>
        emit (in_bounds layer row (col + dc) &&
              board (pos_to_index layer row (col + dc)) == 0)
          (from_idx, pos_to_index layer row (col + dc), QUIET)) ++
      (([-1, 1] : List Int).flatMap fun dc =>
        emit (in_bounds layer (row + direction) (col + dc) &&
              (board (pos_to_index layer (row + direction) (col + dc)) != 0 &&
               is_enemy color (board (pos_to_index layer (row + direction) (col + dc)))))
          (from_idx, pos_to_index layer (row + direction) (col + dc), CAPTURE)) ++
      (if layer == 2 then
        emit (in_bounds 1 row col &&
              (board (pos_to_index 1 row col) != 0 &&
               is_enemy color (board (pos_to_index 1 row col))))
          (from_idx, pos_to_index 1 row col, CAPTURE)
      else []) ++
      (if layer == 1 then
        emit (in_bounds 2 row col && board (pos_to_index 2 row col) == 0)
          (from_idx, pos_to_index 2 row col, QUIET)
      else []) ++
      (if !(in_bounds layer (row + direction) col) then
        emit (in_bounds layer (row - direction) col &&
              board (pos_to_index layer (row - direction) col) == 0)
          (from_idx, pos_to_index layer (row - direction) col, QUIET)
      else [])

/-! ## Game state (`game.py`) -/

/-- The dispatch table `move_generators` of `game.py`, mapping the
absolute piece code to its generator. -/

def move_generators (code : Nat) :
    Option ((Int × Int × Int) → Board → Color → List Move) :=
  match code with
  | 1 => some generate_sylph_moves
  | 2 => some generate_griffin_moves
  | 3 => some generate_dragon_moves
  | 4 => some generate_oliphant_moves
  | 5 => some generate_unicorn_moves
  | 6 => some generate_hero_moves
  | 7 => some generate_thief_moves
  | 8 => some generate_cleric_moves
  | 9 => some generate_mage_moves
  | 10 => some generate_king_moves
  | 11 => some generate_paladin_moves
  | 12 => some generate_warrior_moves
  | 13 => some generate_basilisk_moves
  | 14 => some generate_elemental_moves
  | 15 => some generate_dwarf_moves
  | _ => none

/-- `board_state_hash` of `game.py` computes a sha256 digest of the board
bytes and the turn string.  The digest algorithm lives outside the
embedded logic; it is modelled as the injective map onto the hashed data
itself, which preserves exactly the lookup behaviour of a
collision-free hash. -/
def board_state_hash (board : Board) (turn : Color) : Board × Color :=
  (board, turn)

/-- The mutable `Game` object of `game.py`.  History entries carry the
modelled `board_state_hash` values. -/
structure Game where
  board : Board
  current_turn : Color
  state_history : List (Board × Color)
  game_log : List Move
  move_notations : List String
  no_capture_count : Nat
  game_over : Bool
  winner : Option String
  frozen : Int → Bool

/-- The flag-specific `continue` filters in the move loop of
`Game.get_all_moves`: `QUIET` needs an empty destination, `AMBIGUOUS`
skips only friendly-held destinations, `CAPTURE`/`AFAR` need a non-empty
non-friendly destination, and any other flag passes unchecked. -/
def accept_move (turn : Color) (board : Board) (m : Move) : Bool :=
  if m.2.2 == QUIET then board m.2.1 == 0
  else if m.2.2 == AMBIGUOUS then !(board m.2.1 != 0 && is_friendly turn (board m.2.1))
  else if m.2.2 == CAPTURE || m.2.2 == AFAR then
    !(board m.2.1 == 0) && !(is_friendly turn (board m.2.1))
  else true

def Game.get_all_moves (g : Game) : List Move :=
  (List.range TOTAL_SQUARES).flatMap fun idx =>
    let piece := g.board (idx : Int)
    if piece != 0 && is_friendly g.current_turn piece then
      match move_generators piece.natAbs with
      | some gen =>
        (gen (index_to_pos (idx : Int)) g.board g.current_turn).filter
          (accept_move g.current_turn g.board)
      | none => []
    else []

/-- `Game.piece_letter`: uppercase for Gold codes, lowercase for Scarlet. -/
def piece_letter (piece : Int) : String :=
  let mapping : Int → String := fun c =>
    if c == 1 then "S" else if c == 2 then "G" else if c == 3 then "R"
    else if c == 4 then "O" else if c == 5 then "U" else if c == 6 then "H"
    else if c == 7 then "T" else if c == 8 then "C" else if c == 9 then "M"
    else if c == 10 then "K" else if c == 11 then "P" else if c == 12 then "W"
    else if c == 13 then "B" else if c == 14 then "E" else if c == 15 then "D"
    else "?"
  if piece > 0 then mapping piece else (mapping (-piece)).toLower

/-- `Game.index_to_algebraic` (its debug `print` is a side effect with no
bearing on the returned string). -/
def index_to_algebraic (idx : Int) : String :=
  let layer := (index_to_pos idx).1
  let row := (index_to_pos idx).2.1
  let col := (index_to_pos idx).2.2
  let board_num := layer + 1
  let file_letter := Char.ofNat (97 + col.toNat)
  let rank := (BOARD_ROWS : Int) - row
  toString board_num ++ toString file_letter ++ toString rank

/-- `Game._move_to_algebraic`. -/
def move_to_algebraic (m : Move) (moving_piece : Int) : String :=
  let separator := if m.2.2 == CAPTURE || m.2.2 == AFAR then "x" else "-"
  piece_letter moving_piece ++ index_to_algebraic m.1 ++ separator ++
    index_to_algebraic m.2.1

/-- `Game.make_move`.  The source raises `ValueError` on a
friendly-occupied destination before any state is touched; afterwards it
performs the writes `board[to] = 0` (capture flags only), `board[to] =
moving_piece`, `board[from] = 0` in order, so the final cell contents are
last-write-wins, appends the notation, the move and the position hash,
updates the no-capture counter and flips the turn. -/
def Game.make_move (g : Game) (m : Move) : Except String Game :=
  let from_idx := m.1
  let to_idx := m.2.1
  let flag := m.2.2
  let moving_piece := g.board from_idx
  let target_piece := g.board to_idx
  if target_piece != 0 &&
     ((decide (moving_piece > 0) && decide (target_piece > 0)) ||
      (decide (moving_piece < 0) && decide (target_piece < 0))) then
    Except.error "Illegal move: Attempt to capture a friendly unit."
  else
    let move_alg := move_to_algebraic m moving_piece
    let capture_occurred := (flag == CAPTURE || flag == AFAR) && target_piece != 0
    let new_board : Board := fun i =>
      if i == from_idx then 0 else if i == to_idx then moving_piece else g.board i
    let new_count := if capture_occurred then 0 else g.no_capture_count + 1
    let new_turn := if g.current_turn == Color.Gold then Color.Scarlet else Color.Gold
    Except.ok { g with
      board := new_board
      move_notations := g.move_notations ++ [move_alg]
      game_log := g.game_log ++ [m]
      no_capture_count := new_count
      state_history := g.state_history ++ [board_state_hash new_board g.current_turn]
      current_turn := new_turn }

/-- The row-major `(row, col)` iteration order of the frozen-recompute
loop in `Game.update`. -/
def freeze_pairs : List (Nat × Nat) :=
  (List.range BOARD_ROWS).flatMap fun row =>
    (List.range BOARD_COLS).map fun col => (row, col)

/-- One iteration of the frozen-recompute loop: a Basilisk (code `13` or
`-13`) on the bottom layer freezes an opposite-signed occupant of the
middle-layer cell above it. -/
def freeze_step (board : Board) (fz : Int → Bool) (rc : Nat × Nat) : Int → Bool :=
  let idx_bottom := pos_to_index 2 (rc.1 : Int) (rc.2 : Int)
  let piece := board idx_bottom
  if piece == 13 || piece == -13 then
    let idx_middle := pos_to_index 1 (rc.1 : Int) (rc.2 : Int)
    let target := board idx_middle
    if target != 0 && decide (target * piece < 0) then
      fun i => if i == idx_middle then true else fz i
    else fz
  else fz

/-- The full frozen recompute of `Game.update`: `self.frozen[:] = False`
followed by the double loop over `(row, col)`. -/
def compute_frozen (board : Board) : Int → Bool :=
  freeze_pairs.foldl (freeze_step board) (fun _ => false)

/-- The king scan of `Game.update` (a single loop setting two flags,
equivalently two existence checks). -/
def gold_king_exists (board : Board) : Bool :=
  (List.range TOTAL_SQUARES).any fun idx => board (idx : Int) == 10

def scarlet_king_exists (board : Board) : Bool :=
  (List.range TOTAL_SQUARES).any fun idx => board (idx : Int) == -10

/-- `Game.update`: recompute `frozen`, then the draw check (counter
≥ 250), then the king-absence checks.  Note the king checks are plain
`if`/`elif` after the draw `if`, so they overwrite a draw verdict set
just above. -/
def Game.update (g : Game) : Game :=
  let frozen1 := compute_frozen g.board
  let go1 := if 250 ≤ g.no_capture_count then true else g.game_over
  let w1 := if 250 ≤ g.no_capture_count then some "Draw" else g.winner
  let go2 := if !gold_king_exists g.board then true
             else if !scarlet_king_exists g.board then true else go1
  let w2 := if !gold_king_exists g.board then some "Scarlet"
            else if !scarlet_king_exists g.board then some "Gold" else w1
  { g with frozen := frozen1, game_over := go2, winner := w2 }

/-! ## Search engine (`evolve_dragonfish.py`)

The search works on `state = (board, turn_flag)` pairs whose board is a
copied array, modelled as a `List Int`; `turn_flag` is `1` for Gold and
`-1` for Scarlet.  `time.time() - start_time > time_limit` is an external
input: it is modelled by a boolean stream `clock` indexed by the number
of `alphabeta` entries made so far (the only points where the source
samples the clock), and the evaluator `main_evaluation` (defined in
`bots/dragonfish.py`, outside this repository's sources) is an abstract
parameter `evalf`. -/

abbrev SState := List Int × Int

/-- `hash_state` digests `(board, turn)` with sha256; as with
`board_state_hash` it is modelled as the injective identity map. -/
def hash_state (state : SState) : SState := state

/-- Extended evaluation values: the search seeds its running maxima and
alpha/beta bounds with `-math.inf` / `math.inf`. -/
inductive XVal where
  | negInf
  | num (v : Int)
  | posInf
deriving DecidableEq, Repr

def xlt : XVal → XVal → Bool
  | .negInf, .negInf => false
  | .negInf, _ => true
  | .num _, .negInf => false
  | .num a, .num b => decide (a < b)
  | .num _, .posInf => true
  | .posInf, _ => false

def xle : XVal → XVal → Bool
  | .negInf, _ => true
  | .num _, .negInf => false
  | .num a, .num b => decide (a ≤ b)
  | .num _, .posInf => true
  | .posInf, .posInf => true
  | .posInf, _ => false

/-- Python `max(a, b)`: the second argument only when strictly larger. -/
def xmax (a b : XVal) : XVal := if xlt a b then b else a

/-- Python `min(a, b)`: the second argument only when strictly smaller. -/
def xmin (a b : XVal) : XVal := if xlt b a then b else a

/-- A transposition-table entry `(cached_depth, cached_val, cached_move)`. -/
abbrev TTEntry := Nat × XVal × Option Move

/-- The module-level `transposition_table` dict, modelled as an
association list where insertion prepends (so lookup sees the newest
binding, like a dict overwrite). -/
abbrev TransTable := List (SState × TTEntry)

/-- Read a search board (a `List Int`) as a `Board` function.  Every
access the generators perform is at an index in `[0, 288)` (theorem
`C10`), where `getD` agrees with the source's array indexing. -/
def lboard (b : List Int) : Board := fun i => b.getD i.toNat 0

/-- The flag filters of the search engine's own `get_all_moves` (note:
unlike `Game.get_all_moves` it re-checks only `QUIET`, `CAPTURE` and
`AFAR`). -/
def accept_search (board : Board) (color : Int) (m : Move) : Bool :=
  if m.2.2 == QUIET then board m.2.1 == 0
  else if m.2.2 == CAPTURE || m.2.2 == AFAR then
    !(board m.2.1 == 0) && !(decide (color * board m.2.1 > 0))
  else true

/-- The search engine's `get_all_moves(state, color)`: enumerate the
side's pieces, generate, filter, then `sort` with the Boolean
capture-first key — a stable sort on a two-valued key, i.e. a stable
partition. -/
def search_all_moves (state : SState) (color : Int) : List Move :=
  let moves := (List.range state.1.length).flatMap fun idx =>
    let piece := state.1.getD idx 0
    if piece != 0 && decide (color * piece > 0) then
      match move_generators piece.natAbs with
      | some gen =>
        (gen (index_to_pos (idx : Int)) (lboard state.1)
            (if color == 1 then Color.Gold else Color.Scarlet)).filter
          (accept_search (lboard state.1) color)
      | none => []
    else []
  let parts := moves.partition fun m => m.2.2 == CAPTURE || m.2.2 == AFAR
  parts.1 ++ parts.2

/-- `simulate_move`: copy the board, clear the destination for capture
flags, move the piece, clear the source, flip the turn flag. -/
def simulate_move (state : SState) (m : Move) : SState :=
  let board := state.1
  let piece := board.getD m.1.toNat 0
  let b1 := if m.2.2 == CAPTURE || m.2.2 == AFAR then board.set m.2.1.toNat 0 else board
  let b2 := b1.set m.2.1.toNat piece
  let b3 := b2.set m.1.toNat 0
  (b3, -state.2)

mutual

/-- `alphabeta`: deadline check at entry (raising the timeout signal,
modelled as `Except.error ()`), then the transposition lookup — an entry
is returned outright only when `cached_depth >= depth` — then the main
node search. -/
def alphabeta (evalf : SState → Int) (clock : Nat → Bool) (state : SState)
    (depth : Nat) (alpha beta : XVal) (maximizingPlayer : Bool)
    (tt : TransTable) (tick : Nat) :
    Except Unit ((XVal × Option Move) × TransTable × Nat) :=
  if clock tick then Except.error ()
  else
    match tt.lookup (hash_state state) with
    | some entry =>
      if depth ≤ entry.1 then Except.ok ((entry.2.1, entry.2.2), tt, tick + 1)
      else alphabeta_core evalf clock state depth alpha beta maximizingPlayer tt (tick + 1)
    | none => alphabeta_core evalf clock state depth alpha beta maximizingPlayer tt (tick + 1)
termination_by (depth, 2, 0)

/-- The body of `alphabeta` below the transposition check: leaf
evaluation when the depth is exhausted or no moves exist, otherwise the
move loop followed by the table store. -/
def alphabeta_core (evalf : SState → Int) (clock : Nat → Bool) (state : SState)
    (depth : Nat) (alpha beta : XVal) (maximizingPlayer : Bool)
    (tt : TransTable) (tick : Nat) :
    Except Unit ((XVal × Option Move) × TransTable × Nat) :=
  let key := hash_state state
  let moves := search_all_moves state state.2
  if moves.isEmpty then
    let e := XVal.num (evalf state)
    Except.ok ((e, none), (key, (depth, e, none)) :: tt, tick)
  else
    match depth with
    | 0 =>
      let e := XVal.num (evalf state)
      Except.ok ((e, none), (key, (0, e, none)) :: tt, tick)
    | d + 1 =>
      if maximizingPlayer then
        match ab_loop_max evalf clock state d moves alpha beta XVal.negInf none tt tick with
        | .error e => .error e
        | .ok ((max_eval, best_move), tt2, tick2) =>
          Except.ok ((max_eval, best_move), (key, (d + 1, max_eval, best_move)) :: tt2, tick2)
      else
        match ab_loop_min evalf clock state d moves alpha beta XVal.posInf none tt tick with
        | .error e => .error e
        | .ok ((min_eval, best_move), tt2, tick2) =>
          Except.ok ((min_eval, best_move), (key, (d + 1, min_eval, best_move)) :: tt2, tick2)
termination_by (depth, 1, 0)

/-- The maximizing move loop of `alphabeta`, child depth `d`: recurse,
track the running maximum and its move, raise `alpha`, and break once
`beta <= alpha`. -/
def ab_loop_max (evalf : SState → Int) (clock : Nat → Bool) (state : SState)
    (d : Nat) (moves : List Move) (alpha beta max_eval : XVal)
    (best_move : Option Move) (tt : TransTable) (tick : Nat) :
    Except Unit ((XVal × Option Move) × TransTable × Nat) :=
  match moves with
  | [] => Except.ok ((max_eval, best_move), tt, tick)
  | move :: rest =>
    match alphabeta evalf clock (simulate_move state move) d alpha beta false tt tick with
    | .error e => .error e
    | .ok ((eval_val, _), tt1, tick1) =>
      let max_eval1 := if xlt max_eval eval_val then eval_val else max_eval
      let best_move1 := if xlt max_eval eval_val then some move else best_move
      let alpha1 := xmax alpha eval_val
      if xle beta alpha1 then Except.ok ((max_eval1, best_move1), tt1, tick1)
      else ab_loop_max evalf clock state d rest alpha1 beta max_eval1 best_move1 tt1 tick1
termination_by (d + 1, 0, moves.length)

/-- The minimizing move loop of `alphabeta`, mirror image of
`ab_loop_max`. -/
def ab_loop_min (evalf : SState → Int) (clock : Nat → Bool) (state : SState)
    (d : Nat) (moves : List Move) (alpha beta min_eval : XVal)
    (best_move : Option Move) (tt : TransTable) (tick : Nat) :
    Except Unit ((XVal × Option Move) × TransTable × Nat) :=
  match moves with
  | [] => Except.ok ((min_eval, best_move), tt, tick)
  | move :: rest =>
    match alphabeta evalf clock (simulate_move state move) d alpha beta true tt tick with
    | .error e => .error e
    | .ok ((eval_val, _), tt1, tick1) =>
      let min_eval1 := if xlt eval_val min_eval then eval_val else min_eval
      let best_move1 := if xlt eval_val min_eval then some move else best_move
      let beta1 := xmin beta eval_val
      if xle beta1 alpha then Except.ok ((min_eval1, best_move1), tt1, tick1)
      else ab_loop_min evalf clock state d rest alpha beta1 min_eval1 best_move1 tt1 tick1
termination_by (d + 1, 0, moves.length)

end

/-- The `for depth in range(1, max_depth + 1)` loop of
`iterative_deepening` with its `try`/`except` around each `alphabeta`
call: a timeout breaks out of the loop keeping the last completed
result. -/
def id_loop (evalf : SState → Int) (clock : Nat → Bool) (state : SState) :
    List Nat → Option XVal → Option Move → TransTable → Nat →
      (Option XVal × Option Move) × TransTable × Nat
  | [], best_eval, best_move, tt, tick => ((best_eval, best_move), tt, tick)
  | depth :: rest, best_eval, best_move, tt, tick =>
    match alphabeta evalf clock state depth XVal.negInf XVal.posInf true tt tick with
    | .error _ => ((best_eval, best_move), tt, tick)
    | .ok ((e, m), tt1, tick1) => id_loop evalf clock state rest (some e) m tt1 tick1

def iterative_deepening (evalf : SState → Int) (clock : Nat → Bool)
    (state : SState) (max_depth : Nat) (tt : TransTable) (tick : Nat) :
    (Option XVal × Option Move) × TransTable × Nat :=
  id_loop evalf clock state (List.range' 1 max_depth) none none tt tick

/-- `CMAESBot.choose_move`: build the search state from the game's board
and turn, run iterative deepening to the bot's fixed `max_depth = 3`, and
return the resulting best move (and nothing but that move). -/
def CMAESBot_choose_move (evalf : SState → Int) (clock : Nat → Bool)
    (board : List Int) (turn : Color) (tt : TransTable) (tick : Nat) : Option Move :=
  let state : SState := (board, if turn == Color.Gold then 1 else -1)
  (iterative_deepening evalf clock state 3 tt tick).1.2

/-! ## Concrete fixtures used by witnesses and counterexamples -/

/-- An empty-board game whose no-capture counter has reached 250:
draw condition and king-absence condition hold simultaneously. -/
def g_draw_kingless : Game where
  board := fun _ => 0
  current_turn := Color.Gold
  state_history := []
  game_log := []
  move_notations := []
  no_capture_count := 250
  game_over := false
  winner := none
  frozen := fun _ => false

/-- A game with both kings on the middle layer and the counter at 250. -/
def g_both_kings : Game where
  board := fun i => if i == 102 then 10 else if i == 103 then -10 else 0
  current_turn := Color.Gold
  state_history := []
  game_log := []
  move_notations := []
  no_capture_count := 250
  game_over := false
  winner := none
  frozen := fun _ => false

/-- A Gold Griffin on the top layer at `(0,0,0)` (index 0) with a Scarlet
Sylph on its `(3,2)` jump square `(0,3,2)` (index 38). -/
def g_c2 : Game where
  board := fun i => if i == 0 then 2 else if i == 38 then -1 else 0
  current_turn := Color.Gold
  state_history := []
  game_log := []
  move_notations := []
  no_capture_count := 0
  game_over := false
  winner := none
  frozen := fun _ => false

/-- The Griffin's `AMBIGUOUS`-flagged jump onto the enemy-held square. -/
def m_c2 : Move := (0, 38, AMBIGUOUS)

/-- The game after applying `m_c2` to `g_c2`. -/
def g_c2_after : Game :=
  match g_c2.make_move m_c2 with
  | .ok g => g
  | .error _ => g_c2

/-- Two Gold pieces on adjacent squares: any move between them targets a
friendly-occupied destination. -/
def g_c4 : Game where
  board := fun i => if i == 0 then 1 else if i == 1 then 1 else 0
  current_turn := Color.Gold
  state_history := []
  game_log := []
  move_notations := []
  no_capture_count := 0
  game_over := false
  winner := none
  frozen := fun _ => false

/-- A Gold Dragon at `(0,0,0)` (index 0) above a Scarlet Warrior at
`(1,0,0)` (index 96): the Dragon has a ranged `AFAR` capture straight
down. -/
def g_c8 : Game where
  board := fun i => if i == 0 then 3 else if i == 96 then -12 else 0
  current_turn := Color.Gold
  state_history := []
  game_log := []
  move_notations := []
  no_capture_count := 0
  game_over := false
  winner := none
  frozen := fun _ => false

def m_c8 : Move := (0, 96, AFAR)

/-- The game after applying the `AFAR` capture `m_c8` to `g_c8`. -/
def g_c8_after : Game :=
  match g_c8.make_move m_c8 with
  | .ok g => g
  | .error _ => g_c8

/-- The `g_c8` position as a search-engine board array. -/
def s_c8 : List Int := ((List.replicate TOTAL_SQUARES 0).set 0 3).set 96 (-12)

/-- A board with a single Gold Warrior at `(1,4,5)` (index 149), which
has a quiet forward move to `(1,3,5)` (index 137). -/
def g_c6 : Game where
  board := fun i => if i == 149 then 12 else 0
  current_turn := Color.Gold
  state_history := []
  game_log := []
  move_notations := []
  no_capture_count := 0
  game_over := false
  winner := none
  frozen := fun _ => false

def m_c6 : Move := (149, 137, QUIET)

/-- The `g_c6` board as a search-engine board array. -/
def b_c3 : List Int := (List.replicate TOTAL_SQUARES 0).set 149 12

/-- A transposition table holding a depth-5 entry for the empty-board
search state. -/
def tt_c5 : TransTable := [((([] : List Int), (1 : Int)), (5, XVal.num 7, none))]

/-! ## Theorems -/

theorem in_bounds_iff (layer row col : Int) :
    in_bounds layer row col = true ↔
      0 ≤ layer ∧ layer < 3 ∧ 0 ≤ row ∧ row < 8 ∧ 0 ≤ col ∧ col < 12 := by
  simp [in_bounds, NUM_BOARDS, BOARD_ROWS, BOARD_COLS, and_assoc]

theorem pos_to_index_range {layer row col : Int}
    (h : in_bounds layer row col = true) :
    0 ≤ pos_to_index layer row col ∧ pos_to_index layer row col < 288 := by
  rw [in_bounds_iff] at h
  unfold pos_to_index
  simp only [BOARD_ROWS, BOARD_COLS]
  omega

/-- C7: the coordinate-to-index map and the index-to-coordinate map are
mutually inverse over the valid domain: decoding after encoding returns
the original `(layer, row, col)` whenever the coordinates are in range,
and encoding after decoding returns the original index for every index
in `[0, 288)`. -/
theorem C7_pos_index_bijection :
    (∀ layer row col : Int, 0 ≤ layer → layer < 3 → 0 ≤ row → row < 8 →
      0 ≤ col → col < 12 →
      index_to_pos (pos_to_index layer row col) = (layer, row, col)) ∧
    (∀ index : Int, 0 ≤ index → index < 288 →
      pos_to_index (index_to_pos index).1 (index_to_pos index).2.1
        (index_to_pos index).2.2 = index) := by
  constructor
  · intro layer row col h0 h1 h2 h3 h4 h5
    unfold index_to_pos pos_to_index
    simp only [BOARD_ROWS, BOARD_COLS]
    refine Prod.ext ?_ (Prod.ext ?_ ?_) <;> simp <;> omega
  · intro index h0 h1
    unfold index_to_pos pos_to_index
    simp only [BOARD_ROWS, BOARD_COLS]
    simp only [Nat.cast_ofNat]
    omega

/-- Witness for C7 at concrete inputs: round-tripping `(1, 2, 3)` and
round-tripping index `287`. -/
theorem C7_pos_index_bijection_witness :
    index_to_pos (pos_to_index 1 2 3) = (1, 2, 3) ∧
    pos_to_index (index_to_pos 287).1 (index_to_pos 287).2.1
      (index_to_pos 287).2.2 = 287 := by
  refine ⟨C7_pos_index_bijection.1 1 2 3 (by decide) (by decide) (by decide)
    (by decide) (by decide) (by decide), C7_pos_index_bijection.2 287 (by decide) (by decide)⟩

theorem mem_emit {cond : Bool} {m x : Move} :
    x ∈ emit cond m ↔ cond = true ∧ x = m := by
  cases cond <;> simp [emit]

theorem mem_cond_list {c : Bool} {l : List Move} {x : Move} :
    x ∈ (if c then l else []) ↔ c = true ∧ x ∈ l := by
  cases c <;> simp

theorem mem_emit_dest {layer r c : Int} {rest : Bool} {f : Int} {fl : Nat} {x : Move}
    (hx : x ∈ emit (in_bounds layer r c && rest) (f, pos_to_index layer r c, fl)) :
    in_bounds layer r c = true ∧ rest = true ∧ x = (f, pos_to_index layer r c, fl) := by
  rcases mem_emit.mp hx with ⟨hc, hxx⟩
  rcases Bool.and_eq_true _ _ |>.mp hc with ⟨h1, h2⟩
  exact ⟨h1, h2, hxx⟩

theorem emit_move_ok {layer r c : Int} {rest : Bool} {f : Int} {fl : Nat}
    {board : Board} {color : Color} {x : Move}
    (hfl : fl = QUIET ∨ fl = CAPTURE ∨ fl = AFAR ∨ fl = AMBIGUOUS)
    (hx : x ∈ emit (in_bounds layer r c && rest) (f, pos_to_index layer r c, fl)) :
    move_ok f board color x := by
  obtain ⟨hb, -, rfl⟩ := mem_emit_dest hx
  refine ⟨rfl, pos_to_index_range hb, ?_, ?_⟩
  · rcases hfl with h | h | h | h <;> rw [h] <;> simp
  · intro hT
    rcases hfl with h | h | h | h <;> rw [h] at hT <;>
      simp [QUIET, CAPTURE, AFAR, AMBIGUOUS, THREED] at hT

theorem emit_move_ok_threed {layer r c : Int} {f : Int}
    {board : Board} {color : Color} {x : Move}
    (hx : x ∈ emit (in_bounds layer r c && empty_or_enemy color (board (pos_to_index layer r c)))
      (f, pos_to_index layer r c, THREED)) :
    move_ok f board color x := by
  obtain ⟨hb, hr, rfl⟩ := mem_emit_dest hx
  exact ⟨rfl, pos_to_index_range hb,
    Or.inr (Or.inr (Or.inr (Or.inr rfl))), fun _ => hr⟩

theorem slide_move_ok {board : Board} {color : Color} {f layer dr dc : Int} :
    ∀ (fuel : Nat) (r c : Int) (x : Move),
      x ∈ slide board color f layer dr dc fuel r c → move_ok f board color x := by
  intro fuel
  induction fuel with
  | zero => intro r c x hx; simp [slide] at hx
  | succ n ih =>
    intro r c x hx
    simp only [slide] at hx
    by_cases hb : in_bounds layer (r + dr) (c + dc) = true
    · rw [if_pos hb] at hx
      split at hx
      · rcases List.mem_cons.mp hx with rfl | hx'
        · exact ⟨rfl, pos_to_index_range hb, Or.inr (Or.inr (Or.inr (Or.inl rfl))),
            by intro h; simp [AMBIGUOUS, THREED] at h⟩
        · exact ih _ _ _ hx'
      · split at hx
        · rcases List.mem_singleton.mp hx with rfl
          exact ⟨rfl, pos_to_index_range hb, Or.inr (Or.inr (Or.inr (Or.inl rfl))),
            by intro h; simp [AMBIGUOUS, THREED] at h⟩
        · simp at hx
    · rw [if_neg hb] at hx
      simp at hx

theorem sylph_moves_spec (layer row col : Int) (board : Board) (color : Color) :
    ∀ x ∈ generate_sylph_moves (layer, row, col) board color,
      move_ok (pos_to_index layer row col) board color x := by
  intro x hx
  simp only [generate_sylph_moves] at hx
  split at hx
  · simp only [List.mem_append, List.mem_flatMap] at hx
    rcases hx with (⟨d, -, hx⟩ | hx) | hx
    · exact emit_move_ok (by decide) hx
    · exact emit_move_ok (by decide) hx
    · exact emit_move_ok (by decide) hx
  · split at hx
    · simp only [List.mem_append] at hx
      rcases hx with hx | hx
      · exact emit_move_ok (by decide) hx
      · split at hx <;>
          · simp only [List.mem_flatMap] at hx
            obtain ⟨d, -, hx⟩ := hx
            exact emit_move_ok (by decide) hx
    · simp at hx

theorem griffin_moves_spec (layer row col : Int) (board : Board) (color : Color) :
    ∀ x ∈ generate_griffin_moves (layer, row, col) board color,
      move_ok (pos_to_index layer row col) board color x := by
  intro x hx
  simp only [generate_griffin_moves] at hx
  split at hx
  · simp only [List.mem_append, List.mem_flatMap] at hx
    rcases hx with ⟨d, -, hx⟩ | ⟨d, -, hx⟩ <;> exact emit_move_ok (by decide) hx
  · split at hx
    · simp only [List.mem_append, List.mem_flatMap] at hx
      rcases hx with ⟨d, -, hx⟩ | ⟨d, -, hx⟩ <;> exact emit_move_ok (by decide) hx
    · simp at hx

theorem dragon_moves_spec (layer row col : Int) (board : Board) (color : Color) :
    ∀ x ∈ generate_dragon_moves (layer, row, col) board color,
      move_ok (pos_to_index layer row col) board color x := by
  intro x hx
  simp only [generate_dragon_moves] at hx
  split at hx
  · simp at hx
  · simp only [List.mem_append, List.mem_flatMap] at hx
    rcases hx with ((⟨d, -, hx⟩ | ⟨d, -, hx⟩) | hx) | ⟨d, -, hx⟩
    · exact emit_move_ok (by decide) hx
    · exact slide_move_ok _ _ _ _ hx
    · exact emit_move_ok (by decide) hx
    · exact emit_move_ok (by decide) hx

theorem oliphant_moves_spec (layer row col : Int) (board : Board) (color : Color) :
    ∀ x ∈ generate_oliphant_moves (layer, row, col) board color,
      move_ok (pos_to_index layer row col) board color x := by
  intro x hx
  simp only [generate_oliphant_moves] at hx
  split at hx
  · simp at hx
  · simp only [List.mem_flatMap] at hx
    obtain ⟨d, -, hx⟩ := hx
    exact slide_move_ok _ _ _ _ hx

theorem unicorn_moves_spec (layer row col : Int) (board : Board) (color : Color) :
    ∀ x ∈ generate_unicorn_moves (layer, row, col) board color,
      move_ok (pos_to_index layer row col) board color x := by
  intro x hx
  simp only [generate_unicorn_moves] at hx
  split at hx
  · simp at hx
  · simp only [List.mem_flatMap] at hx
    obtain ⟨d, -, hx⟩ := hx
    exact emit_move_ok (by decide) hx

theorem hero_moves_spec (layer row col : Int) (board : Board) (color : Color) :
    ∀ x ∈ generate_hero_moves (layer, row, col) board color,
      move_ok (pos_to_index layer row col) board color x := by
  intro x hx
  simp only [generate_hero_moves] at hx
  split at hx
  · simp only [List.mem_append, List.mem_flatMap] at hx
    rcases hx with ⟨d, -, hx⟩ | ⟨t, -, d, -, hx⟩ <;> exact emit_move_ok (by decide) hx
  · simp only [List.mem_flatMap] at hx
    obtain ⟨d, -, hx⟩ := hx
    exact emit_move_ok (by decide) hx

theorem thief_moves_spec (layer row col : Int) (board : Board) (color : Color) :
    ∀ x ∈ generate_thief_moves (layer, row, col) board color,
      move_ok (pos_to_index layer row col) board color x := by
  intro x hx
  simp only [generate_thief_moves] at hx
  split at hx
  · simp at hx
  · simp only [List.mem_flatMap] at hx
    obtain ⟨d, -, hx⟩ := hx
    exact slide_move_ok _ _ _ _ hx

theorem cleric_moves_spec (layer row col : Int) (board : Board) (color : Color) :
    ∀ x ∈ generate_cleric_moves (layer, row, col) board color,
      move_ok (pos_to_index layer row col) board color x := by
  intro x hx
  simp only [generate_cleric_moves] at hx
  simp only [List.mem_append, List.mem_flatMap] at hx
  rcases hx with ⟨d, -, hx⟩ | hx
  · exact emit_move_ok (by decide) hx
  · split at hx
    · exact emit_move_ok (by decide) hx
    · split at hx
      · simp only [List.mem_flatMap] at hx
        obtain ⟨t, -, hx⟩ := hx
        exact emit_move_ok (by decide) hx
      · split at hx
        · exact emit_move_ok (by decide) hx
        · simp at hx

theorem mage_moves_spec (layer row col : Int) (board : Board) (color : Color) :
    ∀ x ∈ generate_mage_moves (layer, row, col) board color,
      move_ok (pos_to_index layer row col) board color x := by
  intro x hx
  simp only [generate_mage_moves] at hx
  split at hx
  · simp only [List.mem_append, List.mem_flatMap] at hx
    rcases hx with ⟨d, -, hx⟩ | ⟨d, -, hx⟩
    · exact slide_move_ok _ _ _ _ hx
    · exact emit_move_ok (by decide) hx
  · simp only [List.mem_append, List.mem_flatMap] at hx
    rcases hx with ⟨d, -, hx⟩ | ⟨d, -, hx⟩ <;> exact emit_move_ok (by decide) hx

theorem king_moves_spec (layer row col : Int) (board : Board) (color : Color) :
    ∀ x ∈ generate_king_moves (layer, row, col) board color,
      move_ok (pos_to_index layer row col) board color x := by
  intro x hx
  simp only [generate_king_moves] at hx
  split at hx
  · simp only [List.mem_append, List.mem_flatMap] at hx
    rcases hx with ⟨d, -, hx⟩ | ⟨d, -, hx⟩ <;> exact emit_move_ok (by decide) hx
  · exact emit_move_ok (by decide) hx

theorem paladin_moves_spec (layer row col : Int) (board : Board) (color : Color) :
    ∀ x ∈ generate_paladin_moves (layer, row, col) board color,
      move_ok (pos_to_index layer row col) board color x := by
  intro x hx
  simp only [generate_paladin_moves] at hx
  simp only [List.mem_append, List.mem_flatMap] at hx
  rcases hx with hx | ⟨d, -, hx⟩
  · split at hx
    · simp only [List.mem_append, List.mem_flatMap] at hx
      rcases hx with ⟨d, -, hx⟩ | ⟨d, -, hx⟩ <;> exact emit_move_ok (by decide) hx
    · simp only [List.mem_flatMap] at hx
      obtain ⟨d, -, hx⟩ := hx
      exact emit_move_ok (by decide) hx
  · exact emit_move_ok_threed hx

theorem warrior_moves_spec (layer row col : Int) (board : Board) (color : Color) :
    ∀ x ∈ generate_warrior_moves (layer, row, col) board color,
      move_ok (pos_to_index layer row col) board color x := by
  intro x hx
  simp only [generate_warrior_moves] at hx
  split at hx
  · simp at hx
  · simp only [List.mem_append, List.mem_flatMap] at hx
    rcases hx with hx | ⟨d, -, hx⟩ <;> exact emit_move_ok (by decide) hx

theorem basilisk_moves_spec (layer row col : Int) (board : Board) (color : Color) :
    ∀ x ∈ generate_basilisk_moves (layer, row, col) board color,
      move_ok (pos_to_index layer row col) board color x := by
  intro x hx
  simp only [generate_basilisk_moves] at hx
  split at hx
  · simp at hx
  · simp only [List.mem_append, List.mem_flatMap] at hx
    rcases hx with ⟨d, -, hx⟩ | hx <;> exact emit_move_ok (by decide) hx

theorem elemental_moves_spec (layer row col : Int) (board : Board) (color : Color) :
    ∀ x ∈ generate_elemental_moves (layer, row, col) board color,
      move_ok (pos_to_index layer row col) board color x := by
  intro x hx
  simp only [generate_elemental_moves] at hx
  split at hx
  · rename_i h2
    simp only [List.mem_append, List.mem_flatMap] at hx
    rcases hx with (⟨d, -, hx⟩ | ⟨d, -, hx⟩) | ⟨d, -, hx⟩
    · rcases mem_cond_list.mp hx with ⟨hc, hx⟩
      rcases Bool.and_eq_true _ _ |>.mp hc with ⟨hb, -⟩
      rcases List.mem_cons.mp hx with rfl | hx
      · exact ⟨rfl, pos_to_index_range hb, Or.inr (Or.inr (Or.inr (Or.inl rfl))),
          by intro h; simp [AMBIGUOUS, THREED] at h⟩
      · exact emit_move_ok (by decide) hx
    · exact emit_move_ok (by decide) hx
    · rcases mem_emit.mp hx with ⟨hc, rfl⟩
      rcases Bool.and_eq_true _ _ |>.mp hc with ⟨hb, -⟩
      rw [in_bounds_iff] at hb
      rw [beq_iff_eq] at h2
      refine ⟨rfl, ?_, Or.inr (Or.inl rfl), by intro h; simp [CAPTURE, THREED] at h⟩
      unfold pos_to_index
      simp only [BOARD_ROWS, BOARD_COLS]
      omega
  · split at hx
    · rename_i h2
      simp only [List.mem_flatMap] at hx
      obtain ⟨d, -, hx⟩ := hx
      rcases mem_cond_list.mp hx with ⟨hc, hx⟩
      rcases Bool.and_eq_true _ _ |>.mp hc with ⟨hb, -⟩
      rw [in_bounds_iff] at hb
      rw [beq_iff_eq] at h2
      have hrange : 0 ≤ pos_to_index 2 (row + d.1) (col + d.2) ∧
          pos_to_index 2 (row + d.1) (col + d.2) < 288 := by
        unfold pos_to_index
        simp only [BOARD_ROWS, BOARD_COLS]
        omega
      split at hx
      · rcases List.mem_singleton.mp hx with rfl
        exact ⟨rfl, hrange, Or.inl rfl, by intro h; simp [QUIET, THREED] at h⟩
      · split at hx
        · rcases List.mem_singleton.mp hx with rfl
          exact ⟨rfl, hrange, Or.inr (Or.inl rfl), by intro h; simp [CAPTURE, THREED] at h⟩
        · simp at hx
    · simp at hx

theorem dwarf_moves_spec (layer row col : Int) (board : Board) (color : Color) :
    ∀ x ∈ generate_dwarf_moves (layer, row, col) board color,
      move_ok (pos_to_index layer row col) board color x := by
  intro x hx
  simp only [generate_dwarf_moves] at hx
  split at hx
  · simp at hx
  · simp only [List.mem_append, List.mem_flatMap, mem_cond_list] at hx
    rcases hx with ((((hx | ⟨a, -, hx⟩) | ⟨a, -, hx⟩) | ⟨-, hx⟩) | ⟨-, hx⟩) | ⟨-, hx⟩ <;>
      exact emit_move_ok (by decide) hx

theorem is_friendly_zero (c : Color) : is_friendly c 0 = false := by
  cases c <;> decide

theorem is_friendly_of_enemy {c : Color} {p : Int} (h : is_enemy c p = true) :
    is_friendly c p = false := by
  cases c <;> simp [is_enemy, is_friendly] at h ⊢ <;> omega

theorem enemy_of_not_friendly {c : Color} {p : Int} (hp : p ≠ 0)
    (h : is_friendly c p = false) : is_enemy c p = true := by
  cases c <;> simp [is_enemy, is_friendly] at h ⊢ <;> omega

theorem mem_freeze_pairs {rc : Nat × Nat} :
    rc ∈ freeze_pairs ↔ rc.1 < 8 ∧ rc.2 < 12 := by
  unfold freeze_pairs
  simp only [List.mem_flatMap, List.mem_map, List.mem_range, BOARD_ROWS, BOARD_COLS]
  constructor
  · rintro ⟨r, hr, c, hc, rfl⟩
    exact ⟨hr, hc⟩
  · rintro ⟨h1, h2⟩
    exact ⟨rc.1, h1, rc.2, h2, rfl⟩

/-- One pass of the frozen-recompute loop body can only add the
middle-layer index above a freezing Basilisk. -/
theorem freeze_step_true (board : Board) (fz : Int → Bool) (rc : Nat × Nat) (i : Int) :
    freeze_step board fz rc i = true ↔
      fz i = true ∨
        ((board (pos_to_index 2 (rc.1 : Int) (rc.2 : Int)) = 13 ∨
          board (pos_to_index 2 (rc.1 : Int) (rc.2 : Int)) = -13) ∧
         board (pos_to_index 1 (rc.1 : Int) (rc.2 : Int)) ≠ 0 ∧
         board (pos_to_index 1 (rc.1 : Int) (rc.2 : Int)) *
           board (pos_to_index 2 (rc.1 : Int) (rc.2 : Int)) < 0 ∧
         i = pos_to_index 1 (rc.1 : Int) (rc.2 : Int)) := by
  unfold freeze_step
  dsimp only
  by_cases hA : (board (pos_to_index 2 (rc.1 : Int) (rc.2 : Int)) == 13 ||
      board (pos_to_index 2 (rc.1 : Int) (rc.2 : Int)) == -13) = true
  · rw [if_pos hA]
    by_cases hB : (board (pos_to_index 1 (rc.1 : Int) (rc.2 : Int)) != 0 &&
        decide (board (pos_to_index 1 (rc.1 : Int) (rc.2 : Int)) *
          board (pos_to_index 2 (rc.1 : Int) (rc.2 : Int)) < 0)) = true
    · rw [if_pos hB]
      simp only [Bool.or_eq_true, beq_iff_eq] at hA
      simp only [Bool.and_eq_true, bne_iff_ne, decide_eq_true_eq] at hB
      by_cases hi : i = pos_to_index 1 (rc.1 : Int) (rc.2 : Int)
      · have hbeq : (i == pos_to_index 1 (rc.1 : Int) (rc.2 : Int)) = true := by
          simpa using hi
        simp only [hbeq, if_true]
        constructor
        · intro _
          exact Or.inr ⟨hA, hB.1, hB.2, hi⟩
        · intro _
          trivial
      · have hbeq : (i == pos_to_index 1 (rc.1 : Int) (rc.2 : Int)) = false := by
          simpa using hi
        simp only [hbeq, Bool.false_eq_true, if_false]
        constructor
        · exact Or.inl
        · rintro (h | ⟨-, -, -, hi2⟩)
          · exact h
          · exact absurd hi2 hi
    · rw [if_neg hB]
      simp only [Bool.and_eq_true, bne_iff_ne, decide_eq_true_eq, not_and] at hB
      constructor
      · exact Or.inl
      · rintro (h | ⟨-, h2, h3, -⟩)
        · exact h
        · exact absurd h3 (hB h2)
  · rw [if_neg hA]
    simp only [Bool.or_eq_true, beq_iff_eq] at hA
    push_neg at hA
    constructor
    · exact Or.inl
    · rintro (h | ⟨h1, -, -, -⟩)
      · exact h
      · rcases h1 with h1 | h1
        · exact absurd h1 hA.1
        · exact absurd h1 hA.2

/-- The frozen-recompute fold: a cell ends up `true` iff it was already
`true` or some visited `(row, col)` freezes it. -/
theorem freeze_foldl (board : Board) :
    ∀ (l : List (Nat × Nat)) (fz : Int → Bool) (i : Int),
      (l.foldl (freeze_step board) fz) i = true ↔
        fz i = true ∨ ∃ rc ∈ l,
          (board (pos_to_index 2 (rc.1 : Int) (rc.2 : Int)) = 13 ∨
           board (pos_to_index 2 (rc.1 : Int) (rc.2 : Int)) = -13) ∧
          board (pos_to_index 1 (rc.1 : Int) (rc.2 : Int)) ≠ 0 ∧
          board (pos_to_index 1 (rc.1 : Int) (rc.2 : Int)) *
            board (pos_to_index 2 (rc.1 : Int) (rc.2 : Int)) < 0 ∧
          i = pos_to_index 1 (rc.1 : Int) (rc.2 : Int)
  | [], fz, i => by simp
  | rc :: rest, fz, i => by
    rw [List.foldl_cons, freeze_foldl board rest, freeze_step_true]
    constructor
    · rintro ((h | h) | ⟨rc2, hmem, h⟩)
      · exact Or.inl h
      · exact Or.inr ⟨rc, List.mem_cons_self .., h⟩
      · exact Or.inr ⟨rc2, List.mem_cons_of_mem _ hmem, h⟩
    · rintro (h | ⟨rc2, hmem, h⟩)
      · exact Or.inl (Or.inl h)
      · rcases List.mem_cons.mp hmem with rfl | hmem2
        · exact Or.inl (Or.inr h)
        · exact Or.inr ⟨rc2, hmem2, h⟩

/-- C9: after `update`, `frozen[i]` holds exactly when `i` is a
middle-layer cell holding a piece of opposite side to a Basilisk on the
bottom-layer cell with the same `(row, col)`, and is false everywhere
else.  The right-hand side does not mention the previous `frozen` array:
the flag is cleared and recomputed from the board alone on every call,
so moving the Basilisk away and updating again clears it. -/
theorem C9_frozen_recompute (g : Game) (i : Int) :
    (g.update).frozen i = true ↔
      ∃ r c : Nat, r < 8 ∧ c < 12 ∧ i = pos_to_index 1 (r : Int) (c : Int) ∧
        (g.board (pos_to_index 2 (r : Int) (c : Int)) = 13 ∨
         g.board (pos_to_index 2 (r : Int) (c : Int)) = -13) ∧
        g.board (pos_to_index 1 (r : Int) (c : Int)) ≠ 0 ∧
        g.board (pos_to_index 1 (r : Int) (c : Int)) *
          g.board (pos_to_index 2 (r : Int) (c : Int)) < 0 := by
  have hfz : (g.update).frozen = compute_frozen g.board := rfl
  rw [hfz]
  unfold compute_frozen
  rw [freeze_foldl]
  simp only [Bool.false_eq_true, false_or]
  constructor
  · rintro ⟨rc, hmem, h1, h2, h3, h4⟩
    rcases mem_freeze_pairs.mp hmem with ⟨hr, hc⟩
    exact ⟨rc.1, rc.2, hr, hc, h4, h1, h2, h3⟩
  · rintro ⟨r, c, hr, hc, h4, h1, h2, h3⟩
    exact ⟨(r, c), mem_freeze_pairs.mpr ⟨hr, hc⟩, h1, h2, h3, h4⟩

/-- C1 counterexample: with the counter at 250 and the Gold King absent,
`update` records the winner as `"Scarlet"`, not `"Draw"` — the
king-absence check runs after the draw check and overwrites its verdict,
so the draw does not take precedence. -/
theorem C1_counterexample :
    250 ≤ g_draw_kingless.no_capture_count ∧
    gold_king_exists g_draw_kingless.board = false ∧
    (g_draw_kingless.update).game_over = true ∧
    (g_draw_kingless.update).winner = some "Scarlet" ∧
    (g_draw_kingless.update).winner ≠ some "Draw" := by
  refine ⟨by decide, by decide, by decide, by decide, by decide⟩

/-- C1 amended: when the counter has reached 250, `update` sets
`game_over`, and the winner is `"Draw"` only if both Kings are still on
the board; a simultaneously missing King takes precedence and yields
`"Scarlet"`/`"Gold"` instead. -/
theorem C1_amended (g : Game) (h : 250 ≤ g.no_capture_count) :
    (gold_king_exists g.board = true → scarlet_king_exists g.board = true →
      (g.update).game_over = true ∧ (g.update).winner = some "Draw") ∧
    (gold_king_exists g.board = false →
      (g.update).game_over = true ∧ (g.update).winner = some "Scarlet") ∧
    (gold_king_exists g.board = true → scarlet_king_exists g.board = false →
      (g.update).game_over = true ∧ (g.update).winner = some "Gold") := by
  unfold Game.update
  refine ⟨fun h1 h2 => ?_, fun h1 => ?_, fun h1 h2 => ?_⟩ <;>
    simp [h1, h, *]

/-- Witness for C1's amended statement at a concrete two-king position. -/
theorem C1_amended_witness :
    (g_both_kings.update).game_over = true ∧
    (g_both_kings.update).winner = some "Draw" :=
  (C1_amended g_both_kings (by decide)).1 (by decide) (by decide)

/-- C2 counterexample: the Griffin's `AMBIGUOUS` move `m_c2` is produced
by `get_all_moves`, its destination holds an enemy (`-1`), applying it
removes that enemy (the mover ends up there), and yet the no-capture
counter is incremented to 1 instead of being reset to 0 — the reset
happens only for `CAPTURE`/`AFAR`-flagged moves. -/
theorem C2_counterexample :
    m_c2 ∈ g_c2.get_all_moves ∧
    g_c2.board 38 = -1 ∧
    g_c2.make_move m_c2 = Except.ok g_c2_after ∧
    g_c2_after.board 38 = 2 ∧
    g_c2_after.no_capture_count = g_c2.no_capture_count + 1 := by
  refine ⟨by decide, by decide, rfl, by decide, by decide⟩

/-- C2 amended: `make_move` resets the no-capture counter exactly when
the move's flag is `CAPTURE` or `AFAR` and the destination is occupied;
every other applied move — including `AMBIGUOUS`/`THREED` moves that
remove an enemy occupant — increments it. -/
theorem C2_amended (g : Game) (m : Move) (g' : Game)
    (h : g.make_move m = Except.ok g') :
    g'.no_capture_count =
      if (m.2.2 = CAPTURE ∨ m.2.2 = AFAR) ∧ g.board m.2.1 ≠ 0 then 0
      else g.no_capture_count + 1 := by
  unfold Game.make_move at h
  dsimp only at h
  by_cases hc : (g.board m.2.1 != 0 &&
      ((decide (g.board m.1 > 0) && decide (g.board m.2.1 > 0)) ||
       (decide (g.board m.1 < 0) && decide (g.board m.2.1 < 0)))) = true
  · rw [if_pos hc] at h
    exact absurd h (by simp)
  · rw [if_neg hc] at h
    simp only [Except.ok.injEq] at h
    subst h
    have hiff : ((m.2.2 == CAPTURE || m.2.2 == AFAR) && g.board m.2.1 != 0) = true ↔
        (m.2.2 = CAPTURE ∨ m.2.2 = AFAR) ∧ g.board m.2.1 ≠ 0 := by
      simp [bne_iff_ne]
    by_cases hp : (m.2.2 = CAPTURE ∨ m.2.2 = AFAR) ∧ g.board m.2.1 ≠ 0
    · rw [if_pos hp]
      simp only [hiff.mpr hp, if_true]
    · rw [if_neg hp]
      have hb : ((m.2.2 == CAPTURE || m.2.2 == AFAR) && g.board m.2.1 != 0) = false := by
        rcases Bool.eq_false_or_eq_true ((m.2.2 == CAPTURE || m.2.2 == AFAR) && g.board m.2.1 != 0) with ht | hf
        · exact absurd (hiff.mp ht) hp
        · exact hf
      simp only [hb, Bool.false_eq_true, if_false]

/-- Witness for C2's amended statement: the `AMBIGUOUS` capture `m_c2`
leaves the counter at 1. -/
theorem C2_amended_witness : g_c2_after.no_capture_count = 1 := by
  have h : g_c2.make_move m_c2 = Except.ok g_c2_after := rfl
  rw [C2_amended g_c2 m_c2 g_c2_after h]
  decide

/-- C4: a move whose destination holds a piece of the mover's own sign
is rejected by `make_move` with the illegal-move error.  In the source
the `raise` happens before any field of the game is written, so the
board, turn, counter, logs and history are untouched — which the pure
embedding expresses by returning only the error. -/
theorem C4_illegal_move_rejected (g : Game) (m : Move)
    (h1 : g.board m.2.1 ≠ 0)
    (h2 : (g.board m.1 > 0 ∧ g.board m.2.1 > 0) ∨
          (g.board m.1 < 0 ∧ g.board m.2.1 < 0)) :
    g.make_move m = Except.error "Illegal move: Attempt to capture a friendly unit." := by
  unfold Game.make_move
  have hc : (g.board m.2.1 != 0 &&
      ((decide (g.board m.1 > 0) && decide (g.board m.2.1 > 0)) ||
       (decide (g.board m.1 < 0) && decide (g.board m.2.1 < 0)))) = true := by
    simp only [Bool.and_eq_true, Bool.or_eq_true, bne_iff_ne, decide_eq_true_eq]
    exact ⟨h1, h2⟩
  rw [if_pos hc]

/-- Witness for C4 at a concrete friendly-destination move. -/
theorem C4_illegal_move_rejected_witness :
    g_c4.make_move (0, 1, QUIET) =
      Except.error "Illegal move: Attempt to capture a friendly unit." :=
  C4_illegal_move_rejected g_c4 (0, 1, QUIET) (by decide) (by decide)

/-- C8: an `AFAR`-flagged move behaves exactly like an ordinary capture,
in `make_move` and in the search engine's `simulate_move` alike: the
moving piece ends up on the destination cell (replacing the enemy
occupant, and relocating to the destination's layer since the cell index
encodes the layer), the source cell becomes empty, and every other cell
is untouched — the attacker never stays on its source square. -/
theorem C8_afar_capture_relocates (g : Game) (m : Move) (g' : Game) (state : SState)
    (hf : m.2.2 = AFAR) (hne : m.1 ≠ m.2.1) :
    (g.make_move m = Except.ok g' →
      g'.board m.2.1 = g.board m.1 ∧ g'.board m.1 = 0 ∧
      ∀ i : Int, i ≠ m.1 → i ≠ m.2.1 → g'.board i = g.board i) ∧
    (m.2.1.toNat < state.1.length → m.1.toNat ≠ m.2.1.toNat →
      (simulate_move state m).1.getD m.2.1.toNat 0 = state.1.getD m.1.toNat 0 ∧
      (simulate_move state m).1.getD m.1.toNat 0 = 0 ∧
      (simulate_move state m).2 = -state.2) := by
  constructor
  · intro h
    unfold Game.make_move at h
    dsimp only at h
    by_cases hc : (g.board m.2.1 != 0 &&
        ((decide (g.board m.1 > 0) && decide (g.board m.2.1 > 0)) ||
         (decide (g.board m.1 < 0) && decide (g.board m.2.1 < 0)))) = true
    · rw [if_pos hc] at h
      exact absurd h (by simp)
    · rw [if_neg hc] at h
      simp only [Except.ok.injEq] at h
      subst h
      refine ⟨?_, ?_, ?_⟩
      · have h1 : (m.2.1 == m.1) = false := by simpa using (Ne.symm hne)
        simp [h1]
      · simp
      · intro i hi1 hi2
        have e1 : (i == m.1) = false := by simpa using hi1
        have e2 : (i == m.2.1) = false := by simpa using hi2
        simp [e1, e2]
  · intro hlen hnn
    unfold simulate_move
    dsimp only
    have hflag : (m.2.2 == CAPTURE || m.2.2 == AFAR) = true := by
      rw [hf]
      decide
    rw [if_pos hflag]
    refine ⟨?_, ?_, rfl⟩
    · rw [List.getD_eq_getElem?_getD, List.getElem?_set_ne hnn,
        List.getElem?_set_self (by simpa using hlen)]
      rfl
    · by_cases hflen : m.1.toNat < state.1.length
      · rw [List.getD_eq_getElem?_getD, List.getElem?_set_self (by simpa using hflen)]
        rfl
      · rw [List.getD_eq_getElem?_getD, List.set_eq_of_length_le (by simpa using Nat.le_of_not_lt hflen),
          List.getElem?_set_ne (Ne.symm hnn), List.getElem?_set_ne (Ne.symm hnn)]
        rw [List.getElem?_eq_none (Nat.le_of_not_lt hflen)]
        rfl

/-- Witness for C8: the Dragon's concrete `AFAR` capture from index 0 to
index 96, through `make_move` and through `simulate_move`. -/
theorem C8_afar_capture_relocates_witness :
    g_c8_after.board 96 = g_c8.board 0 ∧ g_c8_after.board 0 = 0 ∧
    (simulate_move (s_c8, 1) m_c8).1.getD 96 0 = s_c8.getD 0 0 ∧
    (simulate_move (s_c8, 1) m_c8).1.getD 0 0 = 0 := by
  have H := C8_afar_capture_relocates g_c8 m_c8 g_c8_after (s_c8, 1) rfl (by decide)
  have h1 := H.1 rfl
  have h2 := H.2 (by decide) (by decide)
  exact ⟨h1.1, h1.2.1, h2.1, h2.2.1⟩

/-- Every dispatched generator only emits `move_ok` moves. -/
theorem move_generators_spec (code : Nat)
    (gen : (Int × Int × Int) → Board → Color → List Move)
    (hg : move_generators code = some gen) (layer row col : Int) (board : Board)
    (color : Color) :
    ∀ m ∈ gen (layer, row, col) board color,
      move_ok (pos_to_index layer row col) board color m := by
  unfold move_generators at hg
  split at hg <;>
    first
      | (simp only [Option.some.injEq] at hg
         subst hg
         first
           | exact sylph_moves_spec layer row col board color
           | exact griffin_moves_spec layer row col board color
           | exact dragon_moves_spec layer row col board color
           | exact oliphant_moves_spec layer row col board color
           | exact unicorn_moves_spec layer row col board color
           | exact hero_moves_spec layer row col board color
           | exact thief_moves_spec layer row col board color
           | exact cleric_moves_spec layer row col board color
           | exact mage_moves_spec layer row col board color
           | exact king_moves_spec layer row col board color
           | exact paladin_moves_spec layer row col board color
           | exact warrior_moves_spec layer row col board color
           | exact basilisk_moves_spec layer row col board color
           | exact elemental_moves_spec layer row col board color
           | exact dwarf_moves_spec layer row col board color)
      | simp at hg

/-- C10: for every in-bounds source position and every board and side,
every move emitted by each of the fifteen dispatched piece-move
generators has its from-index and its to-index inside `[0, 288)`, so the
board indexing performed on generated moves never leaves the array. -/
theorem C10_generated_moves_in_bounds (code : Nat)
    (gen : (Int × Int × Int) → Board → Color → List Move)
    (hg : move_generators code = some gen) (layer row col : Int) (board : Board)
    (color : Color) (hin : in_bounds layer row col = true) :
    ∀ m ∈ gen (layer, row, col) board color,
      (0 ≤ m.1 ∧ m.1 < 288) ∧ (0 ≤ m.2.1 ∧ m.2.1 < 288) := by
  intro m hm
  obtain ⟨h1, h2, -, -⟩ := move_generators_spec code gen hg layer row col board color m hm
  refine ⟨?_, h2⟩
  rw [h1]
  exact pos_to_index_range hin

/-- Witness for C10: the Sylph's quiet move from `(0,3,3)` to `(0,2,2)`
on an empty board. -/
theorem C10_generated_moves_in_bounds_witness :
    (0 ≤ pos_to_index 0 3 3 ∧ pos_to_index 0 3 3 < 288) ∧
    (0 ≤ pos_to_index 0 2 2 ∧ pos_to_index 0 2 2 < 288) :=
  C10_generated_moves_in_bounds 1 generate_sylph_moves rfl 0 3 3 (fun _ => 0)
    Color.Gold (by decide) (pos_to_index 0 3 3, pos_to_index 0 2 2, QUIET) (by decide)

/-- C6: every move returned by `Game.get_all_moves` obeys the
flag-specific acceptance rule — `QUIET` moves land on an empty cell,
`CAPTURE`/`AFAR` moves land on an enemy-occupied cell,
`AMBIGUOUS`/`THREED` moves land on an empty or enemy-occupied cell — and
no returned move lands on a friendly-occupied cell. -/
theorem C6_get_all_moves_flag_rules (g : Game) :
    ∀ m ∈ g.get_all_moves,
      (m.2.2 = QUIET → g.board m.2.1 = 0) ∧
      (m.2.2 = CAPTURE ∨ m.2.2 = AFAR →
        is_enemy g.current_turn (g.board m.2.1) = true) ∧
      (m.2.2 = AMBIGUOUS ∨ m.2.2 = THREED →
        g.board m.2.1 = 0 ∨ is_enemy g.current_turn (g.board m.2.1) = true) ∧
      is_friendly g.current_turn (g.board m.2.1) = false := by
  intro m hm
  unfold Game.get_all_moves at hm
  simp only [List.mem_flatMap, List.mem_range] at hm
  obtain ⟨idx, -, hm⟩ := hm
  rcases mem_cond_list.mp hm with ⟨-, hm⟩
  rcases hgen : move_generators (g.board (idx : Int)).natAbs with - | gen
  · rw [hgen] at hm
    simp at hm
  · rw [hgen] at hm
    rcases List.mem_filter.mp hm with ⟨hmem, hacc⟩
    obtain ⟨-, -, hset, hthreed⟩ :=
      move_generators_spec _ gen hgen (index_to_pos (idx : Int)).1
        (index_to_pos (idx : Int)).2.1 (index_to_pos (idx : Int)).2.2 g.board
        g.current_turn m hmem
    unfold accept_move at hacc
    by_cases h0 : (m.2.2 == QUIET) = true
    · rw [if_pos h0] at hacc
      rw [beq_iff_eq] at h0 hacc
      refine ⟨fun _ => hacc, ?_, fun _ => Or.inl hacc, ?_⟩
      · intro hCA
        rw [h0] at hCA
        rcases hCA with h | h <;> simp [QUIET, CAPTURE, AFAR] at h
      · rw [hacc]
        exact is_friendly_zero _
    · rw [if_neg h0] at hacc
      by_cases h3 : (m.2.2 == AMBIGUOUS) = true
      · rw [if_pos h3] at hacc
        rw [beq_iff_eq] at h3
        have hfree : g.board m.2.1 = 0 ∨
            is_friendly g.current_turn (g.board m.2.1) = false := by
          rcases Bool.and_eq_false_iff.mp (Bool.not_eq_true' .. |>.mp hacc) with h | h
          · exact Or.inl (by simpa using h)
          · exact Or.inr h
        have hfrfalse : is_friendly g.current_turn (g.board m.2.1) = false := by
          rcases hfree with hz | hnf
          · rw [hz]
            exact is_friendly_zero _
          · exact hnf
        refine ⟨?_, ?_, ?_, hfrfalse⟩
        · intro hq
          rw [hq] at h3
          simp [QUIET, AMBIGUOUS] at h3
        · intro hCA
          rw [h3] at hCA
          rcases hCA with h | h <;> simp [AMBIGUOUS, CAPTURE, AFAR] at h
        · intro _hAT
          by_cases hz : g.board m.2.1 = 0
          · exact Or.inl hz
          · exact Or.inr (enemy_of_not_friendly hz hfrfalse)
      · rw [if_neg h3] at hacc
        by_cases h12 : (m.2.2 == CAPTURE || m.2.2 == AFAR) = true
        · rw [if_pos h12] at hacc
          rcases Bool.and_eq_true .. |>.mp hacc with ⟨hne, hnf⟩
          have hne2 : g.board m.2.1 ≠ 0 := by simpa using hne
          have hnf2 : is_friendly g.current_turn (g.board m.2.1) = false :=
            Bool.not_eq_true' .. |>.mp hnf
          have hen := enemy_of_not_friendly hne2 hnf2
          refine ⟨?_, fun _ => hen, ?_, hnf2⟩
          · intro hq
            rw [hq] at h12
            simp [QUIET, CAPTURE, AFAR] at h12
          · intro hAT
            rcases Bool.or_eq_true .. |>.mp h12 with h | h <;> rw [beq_iff_eq] at h <;>
              rcases hAT with h2 | h2 <;> rw [h2] at h <;>
                simp [AMBIGUOUS, THREED, CAPTURE, AFAR] at h
        · have hT : m.2.2 = THREED := by
            rcases hset with h | h | h | h | h
            · exact absurd (by rw [h] : (m.2.2 == QUIET) = (QUIET == QUIET)) (by simp [h0])
            · exact absurd (by rw [h]; rfl : (m.2.2 == CAPTURE || m.2.2 == AFAR) = true) h12
            · exact absurd (by rw [h]; rfl : (m.2.2 == CAPTURE || m.2.2 == AFAR) = true) h12
            · exact absurd (by rw [h]; rfl : (m.2.2 == AMBIGUOUS) = true) h3
            · exact h
          have hee := hthreed hT
          unfold empty_or_enemy at hee
          have hfree : g.board m.2.1 = 0 ∨
              is_enemy g.current_turn (g.board m.2.1) = true := by
            rcases Bool.or_eq_true .. |>.mp hee with h | h
            · exact Or.inl (by simpa using h)
            · exact Or.inr h
          refine ⟨?_, ?_, fun _ => hfree, ?_⟩
          · intro hq
            rw [hq] at hT
            simp [QUIET, THREED] at hT
          · intro hCA
            rcases hCA with h | h <;> rw [h] at hT <;>
              simp [CAPTURE, AFAR, THREED] at hT
          · rcases hfree with hz | hen
            · rw [hz]
              exact is_friendly_zero _
            · exact is_friendly_of_enemy hen

/-- Witness for C6: the Warrior's quiet forward move on the `g_c6`
board has an empty destination and a non-friendly destination. -/
theorem C6_get_all_moves_flag_rules_witness :
    g_c6.board 137 = 0 ∧ is_friendly g_c6.current_turn (g_c6.board 137) = false := by
  have H := C6_get_all_moves_flag_rules g_c6 m_c6 (by decide)
  exact ⟨H.1 rfl, H.2.2.2⟩

/-- C5: at an `alphabeta` node that is not timed out, a transposition
entry for the position's key is returned outright (its value and move,
with the table and only the tick advanced) exactly when its stored depth
is at least the requested depth; a shallower entry is ignored and the
node falls through to the normal search body `alphabeta_core`. -/
theorem C5_transposition_depth_gate (evalf : SState → Int) (clock : Nat → Bool)
    (state : SState) (depth : Nat) (alpha beta : XVal) (maximizingPlayer : Bool)
    (tt : TransTable) (tick : Nat) (cd : Nat) (cv : XVal) (cm : Option Move)
    (hclock : clock tick = false)
    (hlook : tt.lookup (hash_state state) = some (cd, cv, cm)) :
    (depth ≤ cd →
      alphabeta evalf clock state depth alpha beta maximizingPlayer tt tick =
        Except.ok ((cv, cm), tt, tick + 1)) ∧
    (cd < depth →
      alphabeta evalf clock state depth alpha beta maximizingPlayer tt tick =
        alphabeta_core evalf clock state depth alpha beta maximizingPlayer tt (tick + 1)) := by
  constructor <;> intro hd <;>
    · unfold alphabeta
      simp only [hclock, Bool.false_eq_true, if_false, hlook]
      first
        | rw [if_pos hd]
        | rw [if_neg (by omega)]

/-- Witness for C5: a depth-3 query against a cached depth-5 entry is
answered from the table. -/
theorem C5_transposition_depth_gate_witness :
    alphabeta (fun _ => 0) (fun _ => false) (([] : List Int), (1 : Int)) 3
      XVal.negInf XVal.posInf true tt_c5 0 =
      Except.ok ((XVal.num 7, none), tt_c5, 1) :=
  (C5_transposition_depth_gate (fun _ => 0) (fun _ => false)
    (([] : List Int), (1 : Int)) 3 XVal.negInf XVal.posInf true tt_c5 0 5
    (XVal.num 7) none rfl (by decide)).1 (by decide)

/-- C3 counterexample: on a position with legal moves (`b_c3` holds a
Gold Warrior with a quiet forward move), a deadline that is already
exceeded at the first `alphabeta` entry makes `choose_move` return
`none` — there is no fallback to a random legal move. -/
theorem C3_counterexample :
    search_all_moves (b_c3, 1) 1 ≠ [] ∧
    CMAESBot_choose_move (fun _ => 0) (fun _ => true) b_c3 Color.Gold [] 0 = none := by
  constructor
  · decide
  · have h1 : alphabeta (fun _ => 0) (fun _ => true)
        (b_c3, if (Color.Gold == Color.Gold) = true then 1 else -1) 1
        XVal.negInf XVal.posInf true [] 0 = Except.error () := by
      unfold alphabeta
      simp
    unfold CMAESBot_choose_move iterative_deepening
    rw [(rfl : List.range' 1 3 = [1, 2, 3])]
    simp only [id_loop, h1]

/-- C3 amended: the timeout signal raised inside `alphabeta` is caught
inside `iterative_deepening` and never escapes `choose_move`, which
returns the best move of the deepest fully completed iteration
(`max_depth = 3`); but when even the depth-1 iteration cannot complete,
`choose_move` returns `none` — it does not fall back to a random legal
move. -/
theorem C3_amended (evalf : SState → Int) (clock : Nat → Bool) (board : List Int)
    (turn : Color) (tt : TransTable) (tick : Nat) :
    (alphabeta evalf clock (board, if turn == Color.Gold then 1 else -1) 1
        XVal.negInf XVal.posInf true tt tick = Except.error () →
      CMAESBot_choose_move evalf clock board turn tt tick = none) ∧
    (∀ (v1 : XVal) (m1 : Option Move) (tt1 : TransTable) (k1 : Nat),
      alphabeta evalf clock (board, if turn == Color.Gold then 1 else -1) 1
          XVal.negInf XVal.posInf true tt tick = Except.ok ((v1, m1), tt1, k1) →
      (alphabeta evalf clock (board, if turn == Color.Gold then 1 else -1) 2
          XVal.negInf XVal.posInf true tt1 k1 = Except.error () →
        CMAESBot_choose_move evalf clock board turn tt tick = m1) ∧
      (∀ (v2 : XVal) (m2 : Option Move) (tt2 : TransTable) (k2 : Nat),
        alphabeta evalf clock (board, if turn == Color.Gold then 1 else -1) 2
            XVal.negInf XVal.posInf true tt1 k1 = Except.ok ((v2, m2), tt2, k2) →
        (alphabeta evalf clock (board, if turn == Color.Gold then 1 else -1) 3
            XVal.negInf XVal.posInf true tt2 k2 = Except.error () →
          CMAESBot_choose_move evalf clock board turn tt tick = m2) ∧
        (∀ (v3 : XVal) (m3 : Option Move) (tt3 : TransTable) (k3 : Nat),
          alphabeta evalf clock (board, if turn == Color.Gold then 1 else -1) 3
              XVal.negInf XVal.posInf true tt2 k2 = Except.ok ((v3, m3), tt3, k3) →
          CMAESBot_choose_move evalf clock board turn tt tick = m3))) := by
  have hr : List.range' 1 3 = [1, 2, 3] := rfl
  constructor
  · intro h1
    unfold CMAESBot_choose_move iterative_deepening
    rw [hr]
    simp only [id_loop, h1]
  · intro v1 m1 tt1 k1 h1
    constructor
    · intro h2
      unfold CMAESBot_choose_move iterative_deepening
      rw [hr]
      simp only [id_loop, h1, h2]
    · intro v2 m2 tt2 k2 h2
      constructor
      · intro h3
        unfold CMAESBot_choose_move iterative_deepening
        rw [hr]
        simp only [id_loop, h1, h2, h3]
      · intro v3 m3 tt3 k3 h3
        unfold CMAESBot_choose_move iterative_deepening
        rw [hr]
        simp only [id_loop, h1, h2, h3]

/-- Witness for C3's amended statement: an immediately expired clock
forces the depth-1 timeout path and `choose_move` returns `none`. -/
theorem C3_amended_witness :
    CMAESBot_choose_move (fun _ => 0) (fun _ => true) [] Color.Gold [] 0 = none := by
  apply (C3_amended (fun _ => 0) (fun _ => true) [] Color.Gold [] 0).1
  unfold alphabeta
  simp

end Dragonchess
